import Mathlib

/-!
Verification of the custom-Opus to Ogg-Opus reframer
(src/coding/ffmpeg_decoder_custom_opus.c).

The C file is shallowly embedded: byte buffers are `List Nat` whose entries
are bytes (< 256; the write primitives reduce mod 256 like a store through
`uint8_t*`), the random-access byte source (STREAMFILE) is a wrapped byte
list whose out-of-range reads yield zero-filled bytes, sizes are `Nat`
(C `size_t`) and the externally visible read offset is `Int` (C `off_t`).
C loops that are not structurally recursive carry an explicit fuel
parameter; the wrappers instantiate the fuel with a bound that is proved
or checked sufficient where a claim needs it.  The `(int)` narrowing that
the C applies when passing `size_t samples_done` to the `int granule`
parameter of the page builder is modeled by `toInt32`, and the
`uint64_t absolute_granule = granule` widening by `int64Bits`.
-/

/-- Random-access byte source (the STREAMFILE abstraction).  Reads outside
the data return zero-filled bytes. -/
structure Src where
  data : List Nat
deriving Inhabited

/-- Total size of the byte source. -/
def get_streamfile_size (sf : Src) : Nat := sf.data.length

/-- One byte from the source; zero-filled when out of range, reduced mod 256
as a `uint8_t` read. -/
def read_8bit (off : Nat) (sf : Src) : Nat := sf.data.getD off 0 % 256

/-- Little-endian 16-bit read (the value of `(uint16_t)read_16bitLE`). -/
def read_16bitLE (off : Nat) (sf : Src) : Nat :=
  read_8bit off sf + read_8bit (off + 1) sf * 0x100

/-- Big-endian 16-bit read (the value of `(uint16_t)read_16bitBE`). -/
def read_16bitBE (off : Nat) (sf : Src) : Nat :=
  read_8bit off sf * 0x100 + read_8bit (off + 1) sf

/-- Big-endian 32-bit read, modeled as the unsigned 32-bit value of the four
bytes.  (The C function returns a signed `int32_t` that the callers assign
to `size_t`; every value where the sign matters exceeds the 0x2000 page
bound and is rejected by the same guard either way.) -/
def read_32bitBE (off : Nat) (sf : Src) : Nat :=
  read_8bit off sf * 0x1000000 + read_8bit (off + 1) sf * 0x10000 +
    read_8bit (off + 2) sf * 0x100 + read_8bit (off + 3) sf

/-- A slice of `len` bytes of a buffer starting at `off` (the bytes a
`memcpy` out of the buffer yields; absent bytes read as 0). -/
def list_slice (l : List Nat) (off len : Nat) : List Nat :=
  (List.range len).map fun i => l.getD (off + i) 0

/-- A slice of `len` bytes of the byte source starting at `off`. -/
def src_slice (sf : Src) (off len : Nat) : List Nat :=
  (List.range len).map fun i => read_8bit (off + i) sf

/-- `put_8bit`: store one byte (a `uint8_t` store truncates mod 256). -/
def put_8bit (buf : List Nat) (off v : Nat) : List Nat := buf.set off (v % 256)

/-- `put_16bitLE`. -/
def put_16bitLE (buf : List Nat) (off v : Nat) : List Nat :=
  put_8bit (put_8bit buf off v) (off + 1) (v / 0x100)

/-- `put_32bitLE`. -/
def put_32bitLE (buf : List Nat) (off v : Nat) : List Nat :=
  put_8bit (put_8bit (put_8bit (put_8bit buf off v) (off + 1) (v / 0x100))
    (off + 2) (v / 0x10000)) (off + 3) (v / 0x1000000)

/-- `put_32bitBE`. -/
def put_32bitBE (buf : List Nat) (off v : Nat) : List Nat :=
  put_8bit (put_8bit (put_8bit (put_8bit buf off (v / 0x1000000)) (off + 1) (v / 0x10000))
    (off + 2) (v / 0x100)) (off + 3) v

/-- Copy a list of bytes into a buffer at an offset (memcpy into buffer). -/
def write_bytes (buf : List Nat) (off : Nat) (src : List Nat) : List Nat :=
  match src with
  | [] => buf
  | b :: rest => write_bytes (put_8bit buf off b) (off + 1) rest

/-- Little-endian 32-bit readback from a buffer. -/
def get_32bitLE (l : List Nat) (off : Nat) : Nat :=
  l.getD off 0 + l.getD (off + 1) 0 * 0x100 + l.getD (off + 2) 0 * 0x10000 +
    l.getD (off + 3) 0 * 0x1000000

/-- Little-endian 64-bit readback from a buffer. -/
def get_64bitLE (l : List Nat) (off : Nat) : Nat :=
  get_32bitLE l off + get_32bitLE l (off + 4) * 0x100000000

/-- The value of a `size_t` expression after conversion to a 32-bit signed
`int` (C truncating narrowing). -/
def toInt32 (n : Nat) : Int :=
  if n % 0x100000000 < 0x80000000 then ((n % 0x100000000 : Nat) : Int)
  else ((n % 0x100000000 : Nat) : Int) - 0x100000000

/-- The value of an `int` after conversion to `uint64_t`
(`uint64_t absolute_granule = granule`). -/
def int64Bits (i : Int) : Nat := (i % (0x10000000000000000 : Int)).toNat

/-- The Ogg CRC lookup table (from the source, verbatim). -/
def crc_lookup : List Nat := [
  0x00000000, 0x04c11db7, 0x09823b6e, 0x0d4326d9, 0x130476dc, 0x17c56b6b, 0x1a864db2, 0x1e475005,
  0x2608edb8, 0x22c9f00f, 0x2f8ad6d6, 0x2b4bcb61, 0x350c9b64, 0x31cd86d3, 0x3c8ea00a, 0x384fbdbd,
  0x4c11db70, 0x48d0c6c7, 0x4593e01e, 0x4152fda9, 0x5f15adac, 0x5bd4b01b, 0x569796c2, 0x52568b75,
  0x6a1936c8, 0x6ed82b7f, 0x639b0da6, 0x675a1011, 0x791d4014, 0x7ddc5da3, 0x709f7b7a, 0x745e66cd,
  0x9823b6e0, 0x9ce2ab57, 0x91a18d8e, 0x95609039, 0x8b27c03c, 0x8fe6dd8b, 0x82a5fb52, 0x8664e6e5,
  0xbe2b5b58, 0xbaea46ef, 0xb7a96036, 0xb3687d81, 0xad2f2d84, 0xa9ee3033, 0xa4ad16ea, 0xa06c0b5d,
  0xd4326d90, 0xd0f37027, 0xddb056fe, 0xd9714b49, 0xc7361b4c, 0xc3f706fb, 0xceb42022, 0xca753d95,
  0xf23a8028, 0xf6fb9d9f, 0xfbb8bb46, 0xff79a6f1, 0xe13ef6f4, 0xe5ffeb43, 0xe8bccd9a, 0xec7dd02d,
  0x34867077, 0x30476dc0, 0x3d044b19, 0x39c556ae, 0x278206ab, 0x23431b1c, 0x2e003dc5, 0x2ac12072,
  0x128e9dcf, 0x164f8078, 0x1b0ca6a1, 0x1fcdbb16, 0x018aeb13, 0x054bf6a4, 0x0808d07d, 0x0cc9cdca,
  0x7897ab07, 0x7c56b6b0, 0x71159069, 0x75d48dde, 0x6b93dddb, 0x6f52c06c, 0x6211e6b5, 0x66d0fb02,
  0x5e9f46bf, 0x5a5e5b08, 0x571d7dd1, 0x53dc6066, 0x4d9b3063, 0x495a2dd4, 0x44190b0d, 0x40d816ba,
  0xaca5c697, 0xa864db20, 0xa527fdf9, 0xa1e6e04e, 0xbfa1b04b, 0xbb60adfc, 0xb6238b25, 0xb2e29692,
  0x8aad2b2f, 0x8e6c3698, 0x832f1041, 0x87ee0df6, 0x99a95df3, 0x9d684044, 0x902b669d, 0x94ea7b2a,
  0xe0b41de7, 0xe4750050, 0xe9362689, 0xedf73b3e, 0xf3b06b3b, 0xf771768c, 0xfa325055, 0xfef34de2,
  0xc6bcf05f, 0xc27dede8, 0xcf3ecb31, 0xcbffd686, 0xd5b88683, 0xd1799b34, 0xdc3abded, 0xd8fba05a,
  0x690ce0ee, 0x6dcdfd59, 0x608edb80, 0x644fc637, 0x7a089632, 0x7ec98b85, 0x738aad5c, 0x774bb0eb,
  0x4f040d56, 0x4bc510e1, 0x46863638, 0x42472b8f, 0x5c007b8a, 0x58c1663d, 0x558240e4, 0x51435d53,
  0x251d3b9e, 0x21dc2629, 0x2c9f00f0, 0x285e1d47, 0x36194d42, 0x32d850f5, 0x3f9b762c, 0x3b5a6b9b,
  0x0315d626, 0x07d4cb91, 0x0a97ed48, 0x0e56f0ff, 0x1011a0fa, 0x14d0bd4d, 0x19939b94, 0x1d528623,
  0xf12f560e, 0xf5ee4bb9, 0xf8ad6d60, 0xfc6c70d7, 0xe22b20d2, 0xe6ea3d65, 0xeba91bbc, 0xef68060b,
  0xd727bbb6, 0xd3e6a601, 0xdea580d8, 0xda649d6f, 0xc423cd6a, 0xc0e2d0dd, 0xcda1f604, 0xc960ebb3,
  0xbd3e8d7e, 0xb9ff90c9, 0xb4bcb610, 0xb07daba7, 0xae3afba2, 0xaafbe615, 0xa7b8c0cc, 0xa379dd7b,
  0x9b3660c6, 0x9ff77d71, 0x92b45ba8, 0x9675461f, 0x8832161a, 0x8cf30bad, 0x81b02d74, 0x857130c3,
  0x5d8a9099, 0x594b8d2e, 0x5408abf7, 0x50c9b640, 0x4e8ee645, 0x4a4ffbf2, 0x470cdd2b, 0x43cdc09c,
  0x7b827d21, 0x7f436096, 0x7200464f, 0x76c15bf8, 0x68860bfd, 0x6c47164a, 0x61043093, 0x65c52d24,
  0x119b4be9, 0x155a565e, 0x18197087, 0x1cd86d30, 0x029f3d35, 0x065e2082, 0x0b1d065b, 0x0fdc1bec,
  0x3793a651, 0x3352bbe6, 0x3e119d3f, 0x3ad08088, 0x2497d08d, 0x2056cd3a, 0x2d15ebe3, 0x29d4f654,
  0xc5a92679, 0xc1683bce, 0xcc2b1d17, 0xc8ea00a0, 0xd6ad50a5, 0xd26c4d12, 0xdf2f6bcb, 0xdbee767c,
  0xe3a1cbc1, 0xe760d676, 0xea23f0af, 0xeee2ed18, 0xf0a5bd1d, 0xf464a0aa, 0xf9278673, 0xfde69bc4,
  0x89b8fd09, 0x8d79e0be, 0x803ac667, 0x84fbdbd0, 0x9abc8bd5, 0x9e7d9662, 0x933eb0bb, 0x97ffad0c,
  0xafb010b1, 0xab710d06, 0xa6322bdf, 0xa2f33668, 0xbcb4666d, 0xb8757bda, 0xb5365d03, 0xb1f740b4]

/-- One step of the Ogg CRC register update (`uint32_t` arithmetic). -/
def crc_step (crc b : Nat) : Nat :=
  ((crc * 0x100) % 0x100000000) ^^^ crc_lookup.getD (((crc / 0x1000000) % 0x100) ^^^ (b % 256)) 0

/-- Auxiliary recursion for `get_oggs_checksum`: fold the first `n` bytes. -/
def crc_go (data : List Nat) (crc : Nat) : Nat → Nat → Nat
  | _, 0 => crc
  | i, n + 1 => crc_go data (crc_step crc (data.getD i 0)) (i + 1) n

/-- `get_oggs_checksum`: the Ogg CRC of the first `bytes` bytes of `data`. -/
def get_oggs_checksum (data : List Nat) (bytes : Nat) : Nat :=
  crc_go data 0 0 bytes

/-- `opus_packet_get_samples_per_frame` (Fs is 48000 at every call site). -/
def opus_packet_get_samples_per_frame (data : List Nat) (Fs : Nat) : Nat :=
  let b0 := data.getD 0 0
  if b0 &&& 0x80 ≠ 0 then
    (Fs <<< ((b0 >>> 3) &&& 0x3)) / 400
  else if b0 &&& 0x60 = 0x60 then
    (if b0 &&& 0x08 ≠ 0 then Fs / 50 else Fs / 100)
  else
    let audiosize := (b0 >>> 3) &&& 0x3
    if audiosize = 3 then Fs * 60 / 1000 else (Fs <<< audiosize) / 100

/-- `opus_packet_get_nb_frames` (`len` is the C `int` parameter). -/
def opus_packet_get_nb_frames (packet : List Nat) (len : Int) : Nat :=
  if len < 1 then 0
  else
    let count := packet.getD 0 0 &&& 0x3
    if count = 0 then 1
    else if count ≠ 3 then 2
    else if len < 2 then 0
    else packet.getD 1 0 &&& 0x3F

/-- `opus_get_packet_samples`. -/
def opus_get_packet_samples (buf : List Nat) (len : Int) : Nat :=
  opus_packet_get_nb_frames buf len * opus_packet_get_samples_per_frame buf 48000

/-- The lacing-value loop of `make_oggs_page`.  `pd` is the running
`page_done` position relative to `base`; `ld` is `lacing_done`.  The fuel is
instantiated with `data_size + 1`, enough since every iteration laces at
least one byte.  Returns the buffer and the final `page_done`. -/
def lacing_go (buf : List Nat) (base : Nat) : Nat → Nat → Nat → Nat → List Nat × Nat
  | pd, _, _, 0 => (buf, pd)
  | pd, ld, data_size, fuel + 1 =>
    if ld < data_size then
      let bytes := min (data_size - ld) 0xFF
      let buf1 := put_8bit buf (base + pd) bytes
      if ld + bytes = data_size ∧ bytes = 0xFF then
        lacing_go (put_8bit buf1 (base + pd + 1) 0x00) base (pd + 2) (ld + bytes) data_size fuel
      else
        lacing_go buf1 base (pd + 1) (ld + bytes) data_size fuel
    else (buf, pd)

/-- `make_oggs_page`: format one Ogg page into `buf` at `base` (the C works
through a pointer `buf + base`; the payload must already sit at
`base + 0x1b + (data_size / 0xff + 1)`).  Returns the new buffer and the
page length (`0` and the untouched buffer on failure).  The C `& 0xFFFFFFFF`
plus `uint32_t` casts on the granule halves are modeled as mod 2^32. -/
def make_oggs_page (buf : List Nat) (base bs data_size page_sequence : Nat)
    (granule : Int) : List Nat × Nat :=
  if bs < 0x1b + (data_size / 0xFF + 1) + data_size then (buf, 0)
  else
    let absolute_granule := int64Bits granule
    let header_type_flag := if page_sequence = 0 then 2 else 0
    let segment_count := data_size / 0xFF + 1
    let b1 := put_32bitBE buf (base + 0x00) 0x4F676753
    let b2 := put_8bit b1 (base + 0x04) 0
    let b3 := put_8bit b2 (base + 0x05) header_type_flag
    let b4 := put_32bitLE b3 (base + 0x06) (absolute_granule % 0x100000000)
    let b5 := put_32bitLE b4 (base + 0x0A) (absolute_granule / 0x100000000 % 0x100000000)
    let b6 := put_32bitLE b5 (base + 0x0E) 0x7667
    let b7 := put_32bitLE b6 (base + 0x12) page_sequence
    let b8 := put_32bitLE b7 (base + 0x16) 0
    let b9 := put_8bit b8 (base + 0x1A) segment_count
    let lg := lacing_go b9 base 0x1B 0 data_size (data_size + 1)
    let page_done := lg.2 + data_size
    let checksum := get_oggs_checksum (list_slice lg.1 base page_done) page_done
    (put_32bitLE lg.1 (base + 0x16) checksum, page_done)

/-- The bytes of the vendor string constant. -/
def vendor_string : List Nat := [118, 103, 109, 115, 116, 114, 101, 97, 109]

/-- The bytes of the first user comment constant. -/
def user_comment_0_string : List Nat :=
  [118, 103, 109, 115, 116, 114, 101, 97, 109, 32, 79, 112, 117, 115, 32,
   99, 111, 110, 118, 101, 114, 116, 101, 114]

/-- `make_opus_header`: the 19-byte OpusHead packet, written at `base`. -/
def make_opus_header (buf : List Nat) (base bs channels skip sample_rate : Nat) :
    Nat × List Nat :=
  if bs < 0x13 then (0, buf)
  else
    let b1 := put_32bitBE buf (base + 0x00) 0x4F707573
    let b2 := put_32bitBE b1 (base + 0x04) 0x48656164
    let b3 := put_8bit b2 (base + 0x08) 1
    let b4 := put_8bit b3 (base + 0x09) channels
    let b5 := put_16bitLE b4 (base + 0x0A) skip
    let b6 := put_32bitLE b5 (base + 0x0C) sample_rate
    let b7 := put_16bitLE b6 (base + 0x10) 0
    let b8 := put_8bit b7 (base + 0x12) 0
    (0x13, b8)

/-- `make_opus_comment`: the OpusTags packet, written at `base`. -/
def make_opus_comment (buf : List Nat) (base bs : Nat) : Nat × List Nat :=
  let vendor_string_length := vendor_string.length
  let user_comment_0_length := user_comment_0_string.length
  let comment_size := 0x14 + vendor_string_length + user_comment_0_length
  if bs < comment_size then (0, buf)
  else
    let b1 := put_32bitBE buf (base + 0x00) 0x4F707573
    let b2 := put_32bitBE b1 (base + 0x04) 0x54616773
    let b3 := put_32bitLE b2 (base + 0x08) vendor_string_length
    let b4 := write_bytes b3 (base + 0x0C) vendor_string
    let b5 := put_32bitLE b4 (base + 0x0C + vendor_string_length) 1
    let b6 := put_32bitLE b5 (base + 0x0C + vendor_string_length + 0x04) user_comment_0_length
    let b7 := write_bytes b6 (base + 0x0C + vendor_string_length + 0x08) user_comment_0_string
    (comment_size, b7)

/-- `make_oggs_first`: the two header pages (sequence 0 and 1) laid out in
the prelude buffer.  Returns `head_size` and the buffer (`0` on failure). -/
def make_oggs_first (buf : List Nat) (bs channels skip sample_rate : Nat) :
    Nat × List Nat :=
  if bs < 0x100 then (0, buf)
  else
    let (hb, buf1) := make_opus_header buf 0x1c bs channels skip sample_rate
    let (buf2, _) := make_oggs_page buf1 0x00 bs hb 0 0
    let buf_done := 0x1c + hb
    let (cb, buf3) := make_opus_comment buf2 (buf_done + 0x1c) bs
    let (buf4, _) := make_oggs_page buf3 buf_done bs cb 1 0
    (buf_done + 0x1c + cb, buf4)

/-- The four container-framing variants (`opus_type_t`). -/
inductive OpusType where
  | OPUS_SWITCH
  | OPUS_UE4
  | OPUS_EA
  | OPUS_X
deriving DecidableEq, Inhabited

export OpusType (OPUS_SWITCH OPUS_UE4 OPUS_EA OPUS_X)

/-- The per-reframer data (`opus_io_data`).  `page_buffer` is the full
0x2000-byte scratch (the C struct is zero-initialized at setup). -/
structure OpusIoData where
  type : OpusType
  stream_offset : Nat
  stream_size : Nat
  logical_offset : Nat
  physical_offset : Nat
  block_size : Nat
  page_size : Nat
  page_buffer : List Nat
  sequence : Nat
  samples_done : Nat
  head_buffer : List Nat
  head_size : Nat
  logical_size : Nat
deriving Inhabited

/-- `get_xopus_packet_size`: XOPUS packet size from the table at 0x20. -/
def get_xopus_packet_size (packet : Nat) (sf : Src) : Nat :=
  read_16bitLE (0x20 + packet * 0x02) sf

/-- The per-variant framing switch shared by `opus_io_read` and
`opus_io_size`: the next packet payload size and the per-packet skip. -/
def opus_packet_frame (type : OpusType) (sf : Src) (physical_offset packet : Nat) :
    Nat × Nat :=
  match type with
  | OPUS_SWITCH => (read_32bitBE physical_offset sf, 0x08)
  | OPUS_UE4 => (read_16bitLE physical_offset sf, 0x02)
  | OPUS_EA => (read_16bitBE physical_offset sf, 0x02)
  | OPUS_X => (get_xopus_packet_size packet sf, 0)

/-- The backward-seek reset of `opus_io_read` (its effect on the state:
the C writes `logical_offset = 0` and then bumps it to `head_size` when the
requested offset is at or past the prelude). -/
def backward_seek_reset (d : OpusIoData) (o : Nat) : OpusIoData :=
  { d with
    physical_offset := d.stream_offset
    logical_offset := if d.head_size ≤ o then d.head_size else 0
    page_size := 0
    samples_done := 0
    sequence := 2 }

/-- The "process new block" step of `opus_io_read`: when no page is cached,
read the next packet framing and synthesize the Ogg page.  Returns `false`
and the state after the partial mutation when the page does not fit the
0x2000 scratch (the C sets `block_size`, then zeroes `page_size` and breaks
out of the loop). -/
def build_page (sf : Src) (d : OpusIoData) : Bool × OpusIoData :=
  if d.page_size ≠ 0 then (true, d)
  else
    let fr := opus_packet_frame d.type sf d.physical_offset (d.sequence - 2)
    let data_size := fr.1
    let skip_size := fr.2
    let oggs_size := 0x1b + (data_size / 0xFF + 1)
    let block_size := data_size + skip_size
    let page_size := oggs_size + data_size
    if 0x2000 < page_size then
      (false, { d with block_size := block_size, page_size := 0 })
    else
      let buf1 := write_bytes d.page_buffer oggs_size
        (src_slice sf (d.physical_offset + skip_size) data_size)
      let samples := d.samples_done +
        opus_get_packet_samples (list_slice buf1 oggs_size data_size) (data_size : Int)
      let buf2 := (make_oggs_page buf1 0 0x2000 data_size d.sequence (toInt32 samples)).1
      (true, { d with
        block_size := block_size
        page_size := page_size
        page_buffer := buf2
        samples_done := samples
        sequence := d.sequence + 1 })

/-- The "move to next block" step of `opus_io_read`. -/
def advance_block (d : OpusIoData) : OpusIoData :=
  { d with
    physical_offset := d.physical_offset + d.block_size
    logical_offset := d.logical_offset + d.page_size
    page_size := 0 }

/-- The "read blocks, one at a time" loop of `opus_io_read`.  `o` is the
running request offset (nonnegative once past the entry guard), `len` the
remaining length.  Returns the bytes served by the loop and the final
state.  Every iteration either serves at least one byte or advances
`logical_offset` by a positive page size, so fuel
`len + logical_size - logical_offset + 1` is exhaustive; the wrapper
supplies `len + logical_size + 1`. -/
def read_loop (sf : Src) : OpusIoData → Nat → Nat → Nat → List Nat × OpusIoData
  | d, _, _, 0 => ([], d)
  | d, o, len, fuel + 1 =>
    if len = 0 then ([], d)
    else if d.logical_size ≤ d.logical_offset then ([], d)
    else
      let bp := build_page sf d
      if bp.1 = false then ([], bp.2)
      else
        let d1 := bp.2
        if d1.logical_offset + d1.page_size ≤ o then
          read_loop sf (advance_block d1) o len fuel
        else
          let bytes_consumed := o - d1.logical_offset
          let to_read := min (d1.page_size - bytes_consumed) len
          let served := list_slice d1.page_buffer bytes_consumed to_read
          if to_read = 0 then (served, d1)
          else
            let r := read_loop sf d1 (o + to_read) (len - to_read) fuel
            (served ++ r.1, r.2)

/-- `opus_io_read`: the random-access read of the reframer.  Returns the
bytes served (`total_read` is their length) and the state after the call.
Inside the body the request offset is a `Nat`: the entry guard has already
rejected negative offsets, and the backward-seek reset establishes
`logical_offset ≤ offset` before any subtraction. -/
def opus_io_read (sf : Src) (offset : Int) (length : Nat) (d : OpusIoData) :
    List Nat × OpusIoData :=
  if offset < 0 ∨ (d.logical_size : Int) < offset then ([], d)
  else
    let o := offset.toNat
    let fuel := length + d.logical_size + 1
    let d1 := if o < d.logical_offset then backward_seek_reset d o else d
    if o < d1.head_size then
      let bytes_consumed := o - d1.logical_offset
      let to_read := min (d1.head_size - bytes_consumed) length
      let served := list_slice d1.head_buffer bytes_consumed to_read
      let d2 := { d1 with logical_offset := d1.logical_offset + to_read }
      let r := read_loop sf d2 (o + to_read) (length - to_read) fuel
      (served ++ r.1, r.2)
    else
      read_loop sf d1 o length fuel

/-- The size-precomputation walk of `opus_io_size` (its `while` loop),
with the running `logical_size` accumulator.  Returns the accumulator and
the final physical offset; `none` when the fuel runs out (the C loop would
still be running). -/
def size_loop (sf : Src) (type : OpusType) (maxo : Nat) :
    Nat → Nat → Nat → Nat → Option (Nat × Nat)
  | _, off, acc, 0 => if maxo ≤ off then some (acc, off) else none
  | packet, off, acc, fuel + 1 =>
    if maxo ≤ off then some (acc, off)
    else
      let fr := opus_packet_frame type sf off packet
      let data_size := fr.1
      let skip_size := fr.2
      let oggs_size := 0x1b + (data_size / 0xFF + 1)
      size_loop sf type maxo (packet + 1) (off + data_size + skip_size)
        (acc + oggs_size + data_size) fuel

/-- The same walk, recording the payload size of every discovered packet
instead of accumulating byte counts (specification device for relating the
accumulator to a per-packet sum). -/
def size_packets (sf : Src) (type : OpusType) (maxo : Nat) :
    Nat → Nat → Nat → Option (List Nat × Nat)
  | _, off, 0 => if maxo ≤ off then some ([], off) else none
  | packet, off, fuel + 1 =>
    if maxo ≤ off then some ([], off)
    else
      let fr := opus_packet_frame type sf off packet
      match size_packets sf type maxo (packet + 1) (off + fr.1 + fr.2) fuel with
      | none => none
      | some (l, fo) => some (fr.1 :: l, fo)

/-- `opus_io_size` with explicit fuel for its walk (`none` when the C loop
would not have terminated within the fuel). -/
def opus_io_size_fuel (sf : Src) (d : OpusIoData) (fuel : Nat) : Option Nat :=
  if d.logical_size ≠ 0 then some d.logical_size
  else if get_streamfile_size sf < d.stream_offset + d.stream_size then some 0
  else
    match size_loop sf d.type (d.stream_offset + d.stream_size) 0 d.stream_offset
        d.head_size fuel with
    | none => none
    | some (acc, fo) =>
      if get_streamfile_size sf < fo then some 0 else some acc

/-- `setup_opus_streamfile`, reduced to the construction of the
`opus_io_data` instance: zero-initialized state, synthesized prelude, and
the forced `logical_size` initialization. -/
def setup_opus_io_data (sf : Src) (channels skip sample_rate : Nat)
    (stream_offset stream_size : Nat) (type : OpusType) (fuel : Nat) :
    Option OpusIoData :=
  let h := make_oggs_first (List.replicate 0x100 0) 0x100 channels skip sample_rate
  if h.1 = 0 then none
  else
    let d0 : OpusIoData :=
      { type := type
        stream_offset := stream_offset
        stream_size := stream_size
        logical_offset := 0
        physical_offset := stream_offset
        block_size := 0
        page_size := 0
        page_buffer := List.replicate 0x2000 0
        sequence := 2
        samples_done := 0
        head_buffer := h.2
        head_size := h.1
        logical_size := 0 }
    match opus_io_size_fuel sf d0 fuel with
    | none => none
    | some L => some { d0 with logical_size := L }

/-- Ceiling division, the operator the specification uses for the lacing
byte count. -/
def ceil_div (n m : Nat) : Nat := (n + m - 1) / m

/-- The size walk never finishes, whatever fuel it is given: the embedded
image of a `while` loop of the C that never exits. -/
def size_loop_diverges (sf : Src) (type : OpusType) (maxo packet off acc : Nat) : Prop :=
  ∀ fuel, size_loop sf type maxo packet off acc fuel = none

/-- The full size precomputation never finishes, whatever fuel: the C
`opus_io_size` would spin forever on this reframer state. -/
def opus_io_size_diverges (sf : Src) (d : OpusIoData) : Prop :=
  ∀ fuel, opus_io_size_fuel sf d fuel = none

/-- Concrete byte source: one UE4 packet, framing `02 00`, payload `04 00`. -/
def sfC1 : Src := ⟨[0x02, 0x00, 0x04, 0x00]⟩

/-- The reframer constructed over `sfC1` (UE4, mono, preskip 312, 48 kHz,
region `[0, 4)`). -/
def dC1 : OpusIoData := (setup_opus_io_data sfC1 1 312 48000 0 4 OPUS_UE4 8).getD default

/-- Concrete byte source: one UE4 packet whose payload size is exactly 255
(framing `FF 00` followed by 255 payload bytes). -/
def sfC2 : Src := ⟨0xFF :: 0x00 :: List.replicate 255 0⟩

/-- The reframer constructed over `sfC2` (region `[0, 0x101)`). -/
def dC2 : OpusIoData := (setup_opus_io_data sfC2 1 312 48000 0 0x101 OPUS_UE4 8).getD default

/-- The synthesized prelude used by the hand-rolled concrete states. -/
def headC : Nat × List Nat := make_oggs_first (List.replicate 0x100 0) 0x100 1 312 48000

/-- The pre-initialization state `opus_io_size` receives during setup over
`sfC2` (logical_size still 0). -/
def dC2pre : OpusIoData :=
  { type := OPUS_UE4
    stream_offset := 0
    stream_size := 0x101
    logical_offset := 0
    physical_offset := 0
    block_size := 0
    page_size := 0
    page_buffer := List.replicate 0x2000 0
    sequence := 2
    samples_done := 0
    head_buffer := headC.2
    head_size := headC.1
    logical_size := 0 }

/-- An all-zero byte source, large enough that the stream-size guard of
`opus_io_size` passes; for the X variant its size table holds only zeroes. -/
def sfC7 : Src := ⟨List.replicate 0x40 0⟩

/-- A pre-initialization X-variant state over `sfC7` with a nonempty
physical region `[0, 0x10)`. -/
def dC7x : OpusIoData :=
  { type := OPUS_X
    stream_offset := 0
    stream_size := 0x10
    logical_offset := 0
    physical_offset := 0
    block_size := 0
    page_size := 0
    page_buffer := List.replicate 0x2000 0
    sequence := 2
    samples_done := 0
    head_buffer := headC.2
    head_size := headC.1
    logical_size := 0 }

/-- A pre-initialization Switch-variant state whose region extends past the
end of `sfC7` (0x50 > 0x40). -/
def dC7s : OpusIoData :=
  { type := OPUS_SWITCH
    stream_offset := 0
    stream_size := 0x50
    logical_offset := 0
    physical_offset := 0
    block_size := 0
    page_size := 0
    page_buffer := List.replicate 0x2000 0
    sequence := 2
    samples_done := 0
    head_buffer := headC.2
    head_size := headC.1
    logical_size := 0 }

/-- Byte source whose UE4 framing announces a 0xFFFF-byte payload: the
synthesized page would be 0x1011a bytes, far beyond the 0x2000 scratch. -/
def sfC9 : Src := ⟨[0xFF, 0xFF]⟩

/-- A mid-stream state over `sfC9` about to build the oversized page. -/
def dC9 : OpusIoData :=
  { type := OPUS_UE4
    stream_offset := 0
    stream_size := 2
    logical_offset := 0x80
    physical_offset := 0
    block_size := 0
    page_size := 0
    page_buffer := List.replicate 0x2000 0
    sequence := 2
    samples_done := 0
    head_buffer := headC.2
    head_size := headC.1
    logical_size := 0x200 }

/-- A state whose logical cursor sits past offset 3, for exercising the
backward-seek reset. -/
def dC4 : OpusIoData :=
  { type := OPUS_UE4
    stream_offset := 7
    stream_size := 4
    logical_offset := 50
    physical_offset := 11
    block_size := 5
    page_size := 30
    page_buffer := List.replicate 0x2000 0
    sequence := 4
    samples_done := 960
    head_buffer := headC.2
    head_size := headC.1
    logical_size := 60 }

/-- C8: a read whose logical offset is negative or beyond `logical_size`
serves 0 bytes and leaves the whole reframer state unchanged. -/
theorem opus_io_read_out_of_range (sf : Src) (offset : Int) (length : Nat)
    (d : OpusIoData) (h : offset < 0 ∨ (d.logical_size : Int) < offset) :
    opus_io_read sf offset length d = ([], d) := by
  unfold opus_io_read
  rw [if_pos h]

/-- Witness for C8 at a concrete negative offset. -/
theorem opus_io_read_out_of_range_witness :
    ((-1 : Int) < 0 ∨ ((default : OpusIoData).logical_size : Int) < -1) ∧
      opus_io_read sfC1 (-1) 5 default = ([], default) :=
  ⟨Or.inl (by decide), opus_io_read_out_of_range sfC1 (-1) 5 default (Or.inl (by decide))⟩

/-- C6: the per-variant framing reader returns, byte for byte, big-endian
32 bits at the physical offset with skip 8 for Switch, little-endian
16 bits with skip 2 for UE4, big-endian 16 bits with skip 2 for EA, and the
little-endian 16-bit table entry at `0x20 + packet*2` with skip 0 for X. -/
theorem opus_packet_frame_variants (sf : Src) (off k : Nat) :
    opus_packet_frame OPUS_SWITCH sf off k =
      (read_8bit off sf * 0x1000000 + read_8bit (off + 1) sf * 0x10000 +
        read_8bit (off + 2) sf * 0x100 + read_8bit (off + 3) sf, 0x08) ∧
    opus_packet_frame OPUS_UE4 sf off k =
      (read_8bit off sf + read_8bit (off + 1) sf * 0x100, 0x02) ∧
    opus_packet_frame OPUS_EA sf off k =
      (read_8bit off sf * 0x100 + read_8bit (off + 1) sf, 0x02) ∧
    opus_packet_frame OPUS_X sf off k =
      (read_8bit (0x20 + k * 0x02) sf + read_8bit (0x20 + k * 0x02 + 1) sf * 0x100, 0) :=
  ⟨rfl, rfl, rfl, rfl⟩

/-- C3: on a zero-length payload the page builder emits no lacing byte at
all: the returned page length is 27 (not 28), even though the segment-count
byte it writes at offset 26 claims one lacing value (the byte at offset 27
is left untouched). -/
theorem make_oggs_page_zero_payload :
    (make_oggs_page (List.replicate 0x40 0) 0 0x40 0 2 0).2 = 0x1b ∧
    ((make_oggs_page (List.replicate 0x40 0) 0 0x40 0 2 0).1).getD 0x1A 0 = 1 ∧
    ((make_oggs_page (List.replicate 0x40 0) 0 0x40 0 2 0).1).getD 0x1B 0 = 0 ∧
    (make_oggs_page (List.replicate 0x40 0) 0 0x40 0 2 0).2 ≠ 0x1b + 1 + 0 := by
  refine ⟨by decide, by decide, by decide, by decide⟩

/-- Helper: with no cached page and an announced payload whose page would
exceed the scratch, the block builder reports failure, having touched only
`block_size`. -/
theorem build_page_overflow (sf : Src) (d : OpusIoData)
    (hp : d.page_size = 0)
    (hov : 0x2000 <
      0x1b + ((opus_packet_frame d.type sf d.physical_offset (d.sequence - 2)).1 / 0xFF + 1) +
        (opus_packet_frame d.type sf d.physical_offset (d.sequence - 2)).1) :
    build_page sf d = (false, { d with
      block_size := (opus_packet_frame d.type sf d.physical_offset (d.sequence - 2)).1 +
        (opus_packet_frame d.type sf d.physical_offset (d.sequence - 2)).2
      page_size := 0 }) := by
  unfold build_page
  rw [if_neg (by simp [hp])]
  exact if_pos hov

/-- C9: when the page about to be synthesized would not fit the 0x2000
scratch, the loop stops at once serving nothing from it, and the state keeps
its physical cursor, logical cursor, sequence and granule accumulator
(only `block_size` is overwritten and the cached-page length stays 0), so a
later backward seek restarts from a consistent state. -/
theorem read_loop_page_overflow (sf : Src) (d : OpusIoData) (o len fuel : Nat)
    (hp : d.page_size = 0) (hl : 0 < len) (he : d.logical_offset < d.logical_size)
    (hov : 0x2000 <
      0x1b + ((opus_packet_frame d.type sf d.physical_offset (d.sequence - 2)).1 / 0xFF + 1) +
        (opus_packet_frame d.type sf d.physical_offset (d.sequence - 2)).1) :
    read_loop sf d o len (fuel + 1) =
      ([], { d with
        block_size := (opus_packet_frame d.type sf d.physical_offset (d.sequence - 2)).1 +
          (opus_packet_frame d.type sf d.physical_offset (d.sequence - 2)).2
        page_size := 0 }) := by
  unfold read_loop
  rw [if_neg (by omega), if_neg (by omega), build_page_overflow sf d hp hov]
  rfl

/-- Witness for C9: a UE4 packet announcing a 0xFFFF-byte payload from a
state with no cached page, in mid-stream. -/
theorem read_loop_page_overflow_witness :
    dC9.page_size = 0 ∧ 0 < 16 ∧ dC9.logical_offset < dC9.logical_size ∧
      0x2000 <
        0x1b + ((opus_packet_frame dC9.type sfC9 dC9.physical_offset (dC9.sequence - 2)).1 / 0xFF + 1) +
          (opus_packet_frame dC9.type sfC9 dC9.physical_offset (dC9.sequence - 2)).1 ∧
      read_loop sfC9 dC9 0x90 16 (3 + 1) =
        ([], { dC9 with
          block_size := (opus_packet_frame dC9.type sfC9 dC9.physical_offset (dC9.sequence - 2)).1 +
            (opus_packet_frame dC9.type sfC9 dC9.physical_offset (dC9.sequence - 2)).2
          page_size := 0 }) :=
  ⟨by decide, by decide, by decide, by decide,
    read_loop_page_overflow sfC9 dC9 0x90 16 3 (by decide) (by decide) (by decide) (by decide)⟩

/-- C5: the packet inspector computes the frame count from `b0 & 0x03`
(1 / 2 / 2 / `b1 & 0x3F`, and 0 when fewer than 2 bytes are available in
the code-3 case), the samples per frame at Fs = 48000 by the claimed TOC
formula, and the samples in a packet as their product. -/
theorem opus_packet_inspector_formulas (b0 b1 : Nat) (rest : List Nat) (len : Int)
    (hlen : 2 ≤ len) :
    opus_packet_get_nb_frames (b0 :: b1 :: rest) len =
      (if b0 &&& 0x03 = 0 then 1 else if b0 &&& 0x03 = 3 then b1 &&& 0x3F else 2) ∧
    (b0 &&& 0x03 = 3 → ∀ m : Int, m < 2 → opus_packet_get_nb_frames (b0 :: b1 :: rest) m = 0) ∧
    opus_packet_get_samples_per_frame (b0 :: b1 :: rest) 48000 =
      (if b0 &&& 0x80 ≠ 0 then (48000 <<< ((b0 >>> 3) &&& 0x3)) / 400
       else if b0 &&& 0x60 = 0x60 then (if b0 &&& 0x08 ≠ 0 then 48000 / 50 else 48000 / 100)
       else if (b0 >>> 3) &&& 0x3 = 3 then 48000 * 60 / 1000
       else (48000 <<< ((b0 >>> 3) &&& 0x3)) / 100) ∧
    opus_get_packet_samples (b0 :: b1 :: rest) len =
      opus_packet_get_nb_frames (b0 :: b1 :: rest) len *
        opus_packet_get_samples_per_frame (b0 :: b1 :: rest) 48000 := by
  refine ⟨?_, ?_, rfl, rfl⟩
  · unfold opus_packet_get_nb_frames
    rw [if_neg (by omega)]
    simp only [List.getD_cons_zero, List.getD_cons_succ]
    by_cases hc0 : b0 &&& 0x03 = 0
    · simp [hc0]
    · by_cases hc3 : b0 &&& 0x03 = 3
      · simp [hc0, hc3]
        omega
      · simp [hc0, hc3]
  · intro _ m hm
    unfold opus_packet_get_nb_frames
    by_cases hm1 : m < 1
    · rw [if_pos hm1]
    · rw [if_neg hm1]
      simp only [List.getD_cons_zero, List.getD_cons_succ]
      have hc0 : ¬(b0 &&& 0x03 = 0) := by omega
      have hc3 : ¬(b0 &&& 0x03 ≠ 3) := by omega
      rw [if_neg hc0, if_neg hc3, if_pos hm]

/-- Witness for C5 at `b0 = 3`, `b1 = 0x7F`, `len = 2`. -/
theorem opus_packet_inspector_formulas_witness :
    (2 : Int) ≤ 2 ∧
      (opus_packet_get_nb_frames [3, 0x7F] 2 =
        (if 3 &&& 0x03 = 0 then 1 else if 3 &&& 0x03 = 3 then 0x7F &&& 0x3F else 2) ∧
      (3 &&& 0x03 = 3 → ∀ m : Int, m < 2 → opus_packet_get_nb_frames [3, 0x7F] m = 0) ∧
      opus_packet_get_samples_per_frame [3, 0x7F] 48000 =
        (if 3 &&& 0x80 ≠ 0 then (48000 <<< ((3 >>> 3) &&& 0x3)) / 400
         else if 3 &&& 0x60 = 0x60 then (if 3 &&& 0x08 ≠ 0 then 48000 / 50 else 48000 / 100)
         else if (3 >>> 3) &&& 0x3 = 3 then 48000 * 60 / 1000
         else (48000 <<< ((3 >>> 3) &&& 0x3)) / 100) ∧
      opus_get_packet_samples [3, 0x7F] 2 =
        opus_packet_get_nb_frames [3, 0x7F] 2 *
          opus_packet_get_samples_per_frame [3, 0x7F] 48000) :=
  ⟨by decide, opus_packet_inspector_formulas 3 0x7F [] 2 (by decide)⟩

/-- C4: a (valid-offset) read strictly before the current logical cursor
resets the state to exactly: physical cursor at the region start, logical
cursor 0 (or `head_size` when the request is at or past the prelude), no
cached page, granule accumulator 0 and sequence 2.  Stated via a
zero-length read, which performs the reset and nothing else. -/
theorem opus_io_read_backward_seek (sf : Src) (offset : Int) (d : OpusIoData)
    (h0 : 0 ≤ offset) (h1 : offset ≤ (d.logical_size : Int))
    (h2 : offset < (d.logical_offset : Int)) :
    opus_io_read sf offset 0 d =
      ([], { d with
        physical_offset := d.stream_offset
        logical_offset := if d.head_size ≤ offset.toNat then d.head_size else 0
        page_size := 0
        samples_done := 0
        sequence := 2 }) := by
  have hA : ¬(offset < 0) := by omega
  have hB : ¬((d.logical_size : Int) < offset) := by omega
  have hC : offset.toNat < d.logical_offset := by omega
  by_cases hh : d.head_size ≤ offset.toNat
  · have hh2 : ¬(offset.toNat < d.head_size) := by omega
    simp [opus_io_read, hA, hB, hC, backward_seek_reset, hh, hh2, read_loop]
  · have hh2 : offset.toNat < d.head_size := by omega
    simp [opus_io_read, hA, hB, hC, backward_seek_reset, hh, hh2, read_loop, list_slice]

/-- Witness for C4: a backward seek to offset 3 from logical cursor 50. -/
theorem opus_io_read_backward_seek_witness :
    (0 : Int) ≤ 3 ∧ (3 : Int) ≤ (dC4.logical_size : Int) ∧ (3 : Int) < (dC4.logical_offset : Int) ∧
      opus_io_read sfC1 3 0 dC4 =
        ([], { dC4 with
          physical_offset := dC4.stream_offset
          logical_offset := if dC4.head_size ≤ (3 : Int).toNat then dC4.head_size else 0
          page_size := 0
          samples_done := 0
          sequence := 2 }) :=
  ⟨by decide, by decide, by decide,
    opus_io_read_backward_seek sfC1 3 dC4 (by decide) (by decide) (by decide)⟩

/-- Helper: the scalar size walk equals the starting accumulator plus, for
each discovered packet of payload `p`, `0x1b + (p / 0xFF + 1) + p`. -/
theorem size_loop_eq_packet_sum (sf : Src) (type : OpusType) (maxo : Nat) :
    ∀ fuel packet off acc l fo,
      size_packets sf type maxo packet off fuel = some (l, fo) →
      size_loop sf type maxo packet off acc fuel =
        some (acc + (l.map fun p => 0x1b + (p / 0xFF + 1) + p).sum, fo) := by
  intro fuel
  induction fuel with
  | zero =>
    intro packet off acc l fo h
    unfold size_packets at h
    unfold size_loop
    by_cases hm : maxo ≤ off
    · rw [if_pos hm] at h
      obtain ⟨rfl, rfl⟩ : [] = l ∧ off = fo := by
        have h2 := (Option.some.injEq _ _).mp h
        exact ⟨congrArg Prod.fst h2, congrArg Prod.snd h2⟩
      rw [if_pos hm]
      simp
    · rw [if_neg hm] at h
      exact absurd h (by simp)
  | succ n ih =>
    intro packet off acc l fo h
    unfold size_packets at h
    unfold size_loop
    by_cases hm : maxo ≤ off
    · rw [if_pos hm] at h
      obtain ⟨rfl, rfl⟩ : [] = l ∧ off = fo := by
        have h2 := (Option.some.injEq _ _).mp h
        exact ⟨congrArg Prod.fst h2, congrArg Prod.snd h2⟩
      rw [if_pos hm]
      simp
    · rw [if_neg hm] at h
      rw [if_neg hm]
      show size_loop sf type maxo (packet + 1)
          (off + (opus_packet_frame type sf off packet).1 +
            (opus_packet_frame type sf off packet).2)
          (acc + (0x1b + ((opus_packet_frame type sf off packet).1 / 0xFF + 1)) +
            (opus_packet_frame type sf off packet).1) n =
        some (acc + (l.map fun p => 0x1b + (p / 0xFF + 1) + p).sum, fo)
      have h4 : (match size_packets sf type maxo (packet + 1)
          (off + (opus_packet_frame type sf off packet).1 +
            (opus_packet_frame type sf off packet).2) n with
        | none => (none : Option (List Nat × Nat))
        | some (l2, fo2) => some ((opus_packet_frame type sf off packet).1 :: l2, fo2)) =
          some (l, fo) := h
      rcases hrec : size_packets sf type maxo (packet + 1)
          (off + (opus_packet_frame type sf off packet).1 +
            (opus_packet_frame type sf off packet).2) n with _ | ⟨l2, fo2⟩
      · rw [hrec] at h4
        exact absurd h4 (by simp)
      · rw [hrec] at h4
        have h5 : some ((opus_packet_frame type sf off packet).1 :: l2, fo2) =
            some (l, fo) := h4
        have h3 : (opus_packet_frame type sf off packet).1 :: l2 = l ∧ fo2 = fo := by
          have h2 := (Option.some.injEq _ _).mp h5
          exact ⟨congrArg Prod.fst h2, congrArg Prod.snd h2⟩
        obtain ⟨rfl, rfl⟩ := h3
        rw [ih (packet + 1) _ _ l2 fo2 hrec]
        simp only [List.map_cons, List.sum_cons, Option.some.injEq, Prod.mk.injEq, and_true]
        omega

/-- C2 (amended): on a successful walk, the precomputed `logical_size`
equals `head_size` plus the sum over all discovered packets of
`27 + (⌊pi/255⌋ + 1) + pi`: each page costs one lacing byte more than
`⌈pi/255⌉` whenever `pi` is a multiple of 255 (including 0). -/
theorem opus_io_size_packet_sum (sf : Src) (d : OpusIoData) (fuel : Nat)
    (l : List Nat) (fo : Nat)
    (h0 : d.logical_size = 0)
    (h1 : d.stream_offset + d.stream_size ≤ get_streamfile_size sf)
    (h2 : size_packets sf d.type (d.stream_offset + d.stream_size) 0 d.stream_offset fuel =
      some (l, fo))
    (h3 : fo ≤ get_streamfile_size sf) :
    opus_io_size_fuel sf d fuel =
      some (d.head_size + (l.map fun p => 0x1b + (p / 0xFF + 1) + p).sum) := by
  unfold opus_io_size_fuel
  rw [if_neg (by simp [h0]), if_neg (by omega),
    size_loop_eq_packet_sum sf d.type _ fuel 0 d.stream_offset d.head_size l fo h2]
  simp only []
  rw [if_neg (by omega)]

set_option maxRecDepth 40000 in
/-- Witness for C2 (amended): one UE4 packet of payload size 255. -/
theorem opus_io_size_packet_sum_witness :
    dC2pre.logical_size = 0 ∧
    dC2pre.stream_offset + dC2pre.stream_size ≤ get_streamfile_size sfC2 ∧
    size_packets sfC2 dC2pre.type (dC2pre.stream_offset + dC2pre.stream_size) 0
      dC2pre.stream_offset 2 = some ([0xFF], 0x101) ∧
    0x101 ≤ get_streamfile_size sfC2 ∧
    opus_io_size_fuel sfC2 dC2pre 2 =
      some (dC2pre.head_size + ([0xFF].map fun p => 0x1b + (p / 0xFF + 1) + p).sum) :=
  ⟨by decide, by decide, by decide, by decide,
    opus_io_size_packet_sum sfC2 dC2pre 2 [0xFF] 0x101 (by decide) (by decide) (by decide)
      (by decide)⟩

set_option maxRecDepth 40000 in
/-- Counterexample to C2 as stated: the constructed reframer over a single
packet of payload size 255 has `logical_size = head_size + 27 + 2 + 255`,
not `head_size + 27 + ⌈255/255⌉ + 255`. -/
theorem opus_io_size_ceil_counterexample :
    (setup_opus_io_data sfC2 1 312 48000 0 0x101 OPUS_UE4 8).isSome = true ∧
    dC2.head_size = 0x80 ∧
    dC2.logical_size = dC2.head_size + (0x1b + 2 + 0xFF) ∧
    dC2.logical_size ≠ dC2.head_size + (0x1b + ceil_div 0xFF 0xFF + 0xFF) := by
  refine ⟨by decide, by decide, by decide, by decide⟩

/-- Helper: for the non-X variants every walk step consumes at least the
2-byte framing skip. -/
theorem opus_packet_frame_skip_two (type : OpusType) (h : type ≠ OPUS_X)
    (sf : Src) (off p : Nat) : 2 ≤ (opus_packet_frame type sf off p).2 := by
  cases type with
  | OPUS_SWITCH => show (2 : Nat) ≤ 8; omega
  | OPUS_UE4 => show (2 : Nat) ≤ 2; omega
  | OPUS_EA => show (2 : Nat) ≤ 2; omega
  | OPUS_X => exact absurd rfl h

/-- Helper: the size walk finishes once the fuel covers the remaining
region, as long as every step advances (non-X variants). -/
theorem size_loop_terminates_aux (sf : Src) (type : OpusType) (maxo : Nat)
    (h : type ≠ OPUS_X) :
    ∀ fuel packet off acc, maxo ≤ off + fuel →
      (size_loop sf type maxo packet off acc fuel).isSome = true := by
  intro fuel
  induction fuel with
  | zero =>
    intro p off acc hb
    unfold size_loop
    rw [if_pos (by omega)]
    rfl
  | succ n ih =>
    intro p off acc hb
    unfold size_loop
    by_cases hm : maxo ≤ off
    · rw [if_pos hm]
      rfl
    · rw [if_neg hm]
      show (size_loop sf type maxo (p + 1)
        (off + (opus_packet_frame type sf off p).1 + (opus_packet_frame type sf off p).2)
        (acc + (0x1b + ((opus_packet_frame type sf off p).1 / 0xFF + 1)) +
          (opus_packet_frame type sf off p).1) n).isSome = true
      apply ih
      have h2 := opus_packet_frame_skip_two type h sf off p
      omega

/-- C7 (amended): for the Switch, UE4 and EA variants the size walk
terminates as soon as `physical_cursor ≥ physical_start + physical_size`
(fuel equal to the region size is enough, since every step advances by at
least 2 bytes), and the size precomputation returns 0 (fails) when the
physical region extends past the byte-source size.  (The X variant may
never terminate: see the counterexample.) -/
theorem opus_io_size_walk_behavior (sf : Src) (d : OpusIoData) (fuel : Nat)
    (hx : d.type ≠ OPUS_X) (hf : d.stream_size ≤ fuel) :
    (size_loop sf d.type (d.stream_offset + d.stream_size) 0 d.stream_offset
        d.head_size fuel).isSome = true ∧
    (get_streamfile_size sf < d.stream_offset + d.stream_size → d.logical_size = 0 →
      opus_io_size_fuel sf d fuel = some 0) := by
  constructor
  · exact size_loop_terminates_aux sf d.type _ hx fuel 0 d.stream_offset d.head_size (by omega)
  · intro hover h0
    unfold opus_io_size_fuel
    rw [if_neg (by simp [h0]), if_pos hover]

/-- Witness for C7 (amended): a Switch-variant state whose region extends
past the end of the source. -/
theorem opus_io_size_walk_behavior_witness :
    dC7s.type ≠ OPUS_X ∧ dC7s.stream_size ≤ 0x50 ∧
      ((size_loop sfC7 dC7s.type (dC7s.stream_offset + dC7s.stream_size) 0 dC7s.stream_offset
          dC7s.head_size 0x50).isSome = true ∧
        (get_streamfile_size sfC7 < dC7s.stream_offset + dC7s.stream_size →
          dC7s.logical_size = 0 → opus_io_size_fuel sfC7 dC7s 0x50 = some 0)) :=
  ⟨by decide, by decide, opus_io_size_walk_behavior sfC7 dC7s 0x50 (by decide) (by decide)⟩

/-- Helper: over an all-zero source the X-variant walk makes no progress:
the table entry is 0 and the skip is 0, so the cursor stays put forever. -/
theorem size_loop_x_zero_aux :
    ∀ fuel packet acc, size_loop sfC7 OPUS_X 0x10 packet 0 acc fuel = none := by
  intro fuel
  induction fuel with
  | zero =>
    intro p acc
    unfold size_loop
    rw [if_neg (by omega)]
  | succ n ih =>
    intro p acc
    unfold size_loop
    rw [if_neg (by omega)]
    show size_loop sfC7 OPUS_X 0x10 (p + 1)
      (0 + (opus_packet_frame OPUS_X sfC7 0 p).1 + (opus_packet_frame OPUS_X sfC7 0 p).2)
      (acc + (0x1b + ((opus_packet_frame OPUS_X sfC7 0 p).1 / 0xFF + 1)) +
        (opus_packet_frame OPUS_X sfC7 0 p).1) n = none
    have hz : opus_packet_frame OPUS_X sfC7 0 p = (0, 0) := by
      show (get_xopus_packet_size p sfC7, 0) = (0, 0)
      unfold get_xopus_packet_size read_16bitLE read_8bit
      have h1 : ∀ (m i : Nat), ((List.replicate m 0).getD i 0) = 0 := by
        intro m
        induction m with
        | zero => intro i; cases i <;> rfl
        | succ k ih =>
          intro i
          cases i with
          | zero => rfl
          | succ j => rw [List.replicate_succ, List.getD_cons_succ]; exact ih j
      show (sfC7.data.getD (0x20 + p * 2) 0 % 256 +
        sfC7.data.getD (0x20 + p * 2 + 1) 0 % 256 * 0x100, 0) = ((0 : Nat), (0 : Nat))
      rw [show sfC7.data = List.replicate 0x40 0 from rfl, h1, h1]
    rw [hz]
    exact ih (p + 1) _

/-- Counterexample to C7 as stated: over an X-variant reframer whose size
table holds a zero entry, the walk of the size precomputer never reaches
`physical_start + physical_size`, whatever fuel it is given, and the whole
size precomputation diverges. -/
theorem opus_io_size_x_diverges :
    size_loop_diverges sfC7 OPUS_X 0x10 0 0 0x80 ∧ opus_io_size_diverges sfC7 dC7x := by
  constructor
  · intro fuel
    exact size_loop_x_zero_aux fuel 0 0x80
  · intro fuel
    unfold opus_io_size_fuel
    rw [if_neg (show ¬(dC7x.logical_size ≠ 0) from fun h => h rfl), if_neg (by decide)]
    have h1 : size_loop sfC7 dC7x.type (dC7x.stream_offset + dC7x.stream_size) 0
        dC7x.stream_offset dC7x.head_size fuel = none := by
      show size_loop sfC7 OPUS_X 0x10 0 0 dC7x.head_size fuel = none
      exact size_loop_x_zero_aux fuel 0 dC7x.head_size
    rw [h1]

set_option maxRecDepth 100000 in
/-- C1 (code bug): read-splicing is not transparent across the prelude.
Over the constructed UE4 reframer, the sequential reads `[0, 5)` then
`[5, 6)` do not concatenate to the reference full-read prefix `[0, 6)`:
the second read starts inside the prelude with `logical_offset = 5` and
serves `head_buffer[offset - logical_offset] = head_buffer[0] = 0x4F`
instead of `head_buffer[5] = 0x02`. -/
theorem opus_io_read_prelude_split_bug :
    (setup_opus_io_data sfC1 1 312 48000 0 4 OPUS_UE4 8).isSome = true ∧
    (opus_io_read sfC1 5 1 (opus_io_read sfC1 0 5 dC1).2).1 = [0x4F] ∧
    dC1.head_buffer.getD 5 0 = 0x02 ∧
    (opus_io_read sfC1 0 5 dC1).1 ++ (opus_io_read sfC1 5 1 (opus_io_read sfC1 0 5 dC1).2).1 ≠
      (opus_io_read sfC1 0 6 dC1).1 := by
  refine ⟨by decide, by decide, by decide, by decide⟩

/-- Helper: reading back the written index of a `List.set`. -/
theorem list_getD_set_eq (l : List Nat) (i v : Nat) (h : i < l.length) :
    (l.set i v).getD i 0 = v := by
  induction l generalizing i with
  | nil => exact absurd h (by simp)
  | cons a as ih =>
    cases i with
    | zero => rfl
    | succ j =>
      rw [List.set_cons_succ, List.getD_cons_succ]
      exact ih j (by simpa using h)

/-- Helper: `List.set` leaves every other index alone. -/
theorem list_getD_set_ne (l : List Nat) (i j v : Nat) (h : i ≠ j) :
    (l.set i v).getD j 0 = l.getD j 0 := by
  induction l generalizing i j with
  | nil => rfl
  | cons a as ih =>
    cases i with
    | zero =>
      cases j with
      | zero => exact absurd rfl h
      | succ k => rw [List.set_cons_zero, List.getD_cons_succ, List.getD_cons_succ]
    | succ i2 =>
      cases j with
      | zero => rw [List.set_cons_succ, List.getD_cons_zero, List.getD_cons_zero]
      | succ k =>
        rw [List.set_cons_succ, List.getD_cons_succ, List.getD_cons_succ]
        exact ih i2 k (fun hh => h (by rw [hh]))

/-- `put_8bit` preserves the buffer length. -/
theorem put_8bit_length (l : List Nat) (i v : Nat) : (put_8bit l i v).length = l.length := by
  simp [put_8bit]

/-- `put_32bitLE` preserves the buffer length. -/
theorem put_32bitLE_length (l : List Nat) (off v : Nat) :
    (put_32bitLE l off v).length = l.length := by
  simp [put_32bitLE, put_8bit]

/-- `put_32bitBE` preserves the buffer length. -/
theorem put_32bitBE_length (l : List Nat) (off v : Nat) :
    (put_32bitBE l off v).length = l.length := by
  simp [put_32bitBE, put_8bit]

/-- `put_8bit` away from the read index. -/
theorem put_8bit_getD_ne (l : List Nat) (i j v : Nat) (h : i ≠ j) :
    (put_8bit l i v).getD j 0 = l.getD j 0 :=
  list_getD_set_ne l i j (v % 256) h

/-- `put_8bit` at the read index. -/
theorem put_8bit_getD_eq (l : List Nat) (i v : Nat) (h : i < l.length) :
    (put_8bit l i v).getD i 0 = v % 256 :=
  list_getD_set_eq l i (v % 256) h

/-- The four bytes a `put_32bitLE` lays down. -/
theorem put_32bitLE_getD_self (l : List Nat) (off v : Nat) (h : off + 3 < l.length) :
    (put_32bitLE l off v).getD off 0 = v % 256 ∧
    (put_32bitLE l off v).getD (off + 1) 0 = v / 0x100 % 256 ∧
    (put_32bitLE l off v).getD (off + 2) 0 = v / 0x10000 % 256 ∧
    (put_32bitLE l off v).getD (off + 3) 0 = v / 0x1000000 % 256 := by
  unfold put_32bitLE
  refine ⟨?_, ?_, ?_, ?_⟩
  · rw [put_8bit_getD_ne _ _ _ _ (by omega), put_8bit_getD_ne _ _ _ _ (by omega),
      put_8bit_getD_ne _ _ _ _ (by omega)]
    exact put_8bit_getD_eq _ _ _ (by omega)
  · rw [put_8bit_getD_ne _ _ _ _ (by omega), put_8bit_getD_ne _ _ _ _ (by omega)]
    exact put_8bit_getD_eq _ _ _ (by rw [put_8bit_length]; omega)
  · rw [put_8bit_getD_ne _ _ _ _ (by omega)]
    exact put_8bit_getD_eq _ _ _ (by rw [put_8bit_length, put_8bit_length]; omega)
  · exact put_8bit_getD_eq _ _ _
      (by rw [put_8bit_length, put_8bit_length, put_8bit_length]; omega)

/-- `put_32bitLE` away from a 4-byte read window. -/
theorem put_32bitLE_getD_ne (l : List Nat) (i v j : Nat) (h : j < i ∨ i + 3 < j) :
    (put_32bitLE l i v).getD j 0 = l.getD j 0 := by
  unfold put_32bitLE
  rw [put_8bit_getD_ne _ _ _ _ (by omega), put_8bit_getD_ne _ _ _ _ (by omega),
    put_8bit_getD_ne _ _ _ _ (by omega), put_8bit_getD_ne _ _ _ _ (by omega)]

/-- A 32-bit read a whole window away from a single byte store. -/
theorem get_32bitLE_put_8bit_out (l : List Nat) (i v off : Nat)
    (h : i < off ∨ off + 3 < i) :
    get_32bitLE (put_8bit l i v) off = get_32bitLE l off := by
  unfold get_32bitLE
  rw [put_8bit_getD_ne _ _ _ _ (by omega), put_8bit_getD_ne _ _ _ _ (by omega),
    put_8bit_getD_ne _ _ _ _ (by omega), put_8bit_getD_ne _ _ _ _ (by omega)]

/-- A 32-bit read a whole window away from a 32-bit store. -/
theorem get_32bitLE_put_32bitLE_out (l : List Nat) (i v off : Nat)
    (h : i + 3 < off ∨ off + 3 < i) :
    get_32bitLE (put_32bitLE l i v) off = get_32bitLE l off := by
  unfold get_32bitLE
  rw [put_32bitLE_getD_ne _ _ _ _ (by omega), put_32bitLE_getD_ne _ _ _ _ (by omega),
    put_32bitLE_getD_ne _ _ _ _ (by omega), put_32bitLE_getD_ne _ _ _ _ (by omega)]

/-- Reading back the 32-bit little-endian store. -/
theorem get_32bitLE_put_32bitLE_self (l : List Nat) (off v : Nat) (h : off + 3 < l.length) :
    get_32bitLE (put_32bitLE l off v) off = v % 0x100000000 := by
  have h4 := put_32bitLE_getD_self l off v h
  unfold get_32bitLE
  rw [h4.1, h4.2.1, h4.2.2.1, h4.2.2.2]
  omega

/-- The lacing loop only writes at or after its starting `page_done`. -/
theorem lacing_go_getD_lt :
    ∀ fuel buf base pd ld ds j, j < base + pd →
      ((lacing_go buf base pd ld ds fuel).1).getD j 0 = buf.getD j 0 := by
  intro fuel
  induction fuel with
  | zero => intro buf base pd ld ds j hj; rfl
  | succ n ih =>
    intro buf base pd ld ds j hj
    unfold lacing_go
    by_cases hld : ld < ds
    · rw [if_pos hld]
      show ((if ld + min (ds - ld) 0xFF = ds ∧ min (ds - ld) 0xFF = 0xFF then
          lacing_go (put_8bit (put_8bit buf (base + pd) (min (ds - ld) 0xFF)) (base + pd + 1) 0x00)
            base (pd + 2) (ld + min (ds - ld) 0xFF) ds n
        else
          lacing_go (put_8bit buf (base + pd) (min (ds - ld) 0xFF)) base (pd + 1)
            (ld + min (ds - ld) 0xFF) ds n).1).getD j 0 = buf.getD j 0
      by_cases hb : ld + min (ds - ld) 0xFF = ds ∧ min (ds - ld) 0xFF = 0xFF
      · rw [if_pos hb, ih _ _ _ _ _ _ (by omega), put_8bit_getD_ne _ _ _ _ (by omega),
          put_8bit_getD_ne _ _ _ _ (by omega)]
      · rw [if_neg hb, ih _ _ _ _ _ _ (by omega), put_8bit_getD_ne _ _ _ _ (by omega)]
    · rw [if_neg hld]

/-- A 32-bit read strictly before the lacing area is unaffected by it. -/
theorem get_32bitLE_lacing_out (fuel : Nat) (buf : List Nat) (base pd ld ds off : Nat)
    (h : off + 3 < base + pd) :
    get_32bitLE ((lacing_go buf base pd ld ds fuel).1) off = get_32bitLE buf off := by
  unfold get_32bitLE
  rw [lacing_go_getD_lt _ _ _ _ _ _ _ (by omega), lacing_go_getD_lt _ _ _ _ _ _ _ (by omega),
    lacing_go_getD_lt _ _ _ _ _ _ _ (by omega), lacing_go_getD_lt _ _ _ _ _ _ _ (by omega)]

/-- C10: the 64-bit granule field of a synthesized page (bytes 6..13,
little-endian) holds the running sample total after its narrowing to a
32-bit signed `int` and sign-extending widening to unsigned 64 bits: it is
exactly `samples_done` (upper half zero) while `samples_done < 2^31`, and
the truncated, sign-extended value, different from the true count, once
`samples_done ≥ 2^31`. -/
theorem make_oggs_page_granule_truncation (buf : List Nat) (bs ds seq samples : Nat)
    (h1 : 0x1b + (ds / 0xFF + 1) + ds ≤ bs) (h2 : bs ≤ buf.length) :
    get_64bitLE (make_oggs_page buf 0 bs ds seq (toInt32 samples)).1 0x06 =
      int64Bits (toInt32 samples) ∧
    (samples < 0x80000000 →
      get_64bitLE (make_oggs_page buf 0 bs ds seq (toInt32 samples)).1 0x06 = samples ∧
      get_32bitLE (make_oggs_page buf 0 bs ds seq (toInt32 samples)).1 0x0A = 0) ∧
    (0x80000000 ≤ samples → samples < 0xFFFFFFFF80000000 →
      get_64bitLE (make_oggs_page buf 0 bs ds seq (toInt32 samples)).1 0x06 ≠ samples) := by
  have hA : int64Bits (toInt32 samples) =
      (if samples % 0x100000000 < 0x80000000 then samples % 0x100000000
       else 0xFFFFFFFF00000000 + samples % 0x100000000) := by
    unfold toInt32 int64Bits
    by_cases hc : samples % 0x100000000 < 0x80000000
    · rw [if_pos hc, if_pos hc]
      omega
    · rw [if_neg hc, if_neg hc]
      omega
  have hA64 : int64Bits (toInt32 samples) < 0x10000000000000000 := by
    rw [hA]
    split <;> omega
  have hg : get_32bitLE (make_oggs_page buf 0 bs ds seq (toInt32 samples)).1 0x06 =
        int64Bits (toInt32 samples) % 0x100000000 ∧
      get_32bitLE (make_oggs_page buf 0 bs ds seq (toInt32 samples)).1 0x0A =
        int64Bits (toInt32 samples) / 0x100000000 % 0x100000000 := by
    unfold make_oggs_page
    rw [if_neg (by omega)]
    simp only [Nat.zero_add]
    constructor
    · rw [get_32bitLE_put_32bitLE_out _ _ _ _ (by omega),
        get_32bitLE_lacing_out _ _ _ _ _ _ _ (by omega),
        get_32bitLE_put_8bit_out _ _ _ _ (by omega),
        get_32bitLE_put_32bitLE_out _ _ _ _ (by omega),
        get_32bitLE_put_32bitLE_out _ _ _ _ (by omega),
        get_32bitLE_put_32bitLE_out _ _ _ _ (by omega),
        get_32bitLE_put_32bitLE_out _ _ _ _ (by omega),
        get_32bitLE_put_32bitLE_self _ _ _
          (by rw [put_8bit_length, put_8bit_length, put_32bitBE_length]; omega)]
      omega
    · rw [get_32bitLE_put_32bitLE_out _ _ _ _ (by omega),
        get_32bitLE_lacing_out _ _ _ _ _ _ _ (by omega),
        get_32bitLE_put_8bit_out _ _ _ _ (by omega),
        get_32bitLE_put_32bitLE_out _ _ _ _ (by omega),
        get_32bitLE_put_32bitLE_out _ _ _ _ (by omega),
        get_32bitLE_put_32bitLE_out _ _ _ _ (by omega),
        get_32bitLE_put_32bitLE_self _ _ _
          (by rw [put_32bitLE_length, put_8bit_length, put_8bit_length, put_32bitBE_length]
              omega)]
      omega
  have h64 : get_64bitLE (make_oggs_page buf 0 bs ds seq (toInt32 samples)).1 0x06 =
      int64Bits (toInt32 samples) := by
    unfold get_64bitLE
    rw [show (0x06 : Nat) + 4 = 0x0A by norm_num, hg.1, hg.2]
    omega
  refine ⟨h64, ?_, ?_⟩
  · intro hs
    have hAs : int64Bits (toInt32 samples) = samples := by
      rw [hA, if_pos (by omega)]
      omega
    constructor
    · rw [h64, hAs]
    · rw [hg.2, hAs]
      omega
  · intro hs1 hs2
    rw [h64]
    by_cases hc : samples % 0x100000000 < 0x80000000
    · rw [hA, if_pos hc]
      omega
    · rw [hA, if_neg hc]
      omega

/-- Witness for C10: a zero-length payload into a 64-byte scratch with the
running total at 5 samples. -/
theorem make_oggs_page_granule_truncation_witness :
    0x1b + (0 / 0xFF + 1) + 0 ≤ 0x40 ∧ 0x40 ≤ (List.replicate 0x40 0).length ∧
      (get_64bitLE (make_oggs_page (List.replicate 0x40 0) 0 0x40 0 2 (toInt32 5)).1 0x06 =
        int64Bits (toInt32 5) ∧
      (5 < 0x80000000 →
        get_64bitLE (make_oggs_page (List.replicate 0x40 0) 0 0x40 0 2 (toInt32 5)).1 0x06 = 5 ∧
        get_32bitLE (make_oggs_page (List.replicate 0x40 0) 0 0x40 0 2 (toInt32 5)).1 0x0A = 0) ∧
      (0x80000000 ≤ 5 → 5 < 0xFFFFFFFF80000000 →
        get_64bitLE (make_oggs_page (List.replicate 0x40 0) 0 0x40 0 2 (toInt32 5)).1 0x06 ≠ 5)) :=
  ⟨by decide, by decide,
    make_oggs_page_granule_truncation (List.replicate 0x40 0) 0x40 0 2 5 (by decide) (by decide)⟩
